import Mathlib

/-!
Verification of the query execution and validation pipeline of the
clickhouse-connector service: the safety validator (`ValidateQuery`), the
query executor (`ExecuteQuery`), the result mapper (`convertToRetailers`)
and the gRPC facade (`GetRetailers`).

Go strings are modelled as `List Char` (the queries involved are ASCII).
The database backend is an opaque collaborator, modelled as an oracle
`DB` mapping the final query text and bound arguments to either an error
message or a raw result set.  Wall-clock time measurement is modelled as
an environment-supplied input `elapsedMs`.  Functions that may call the
backend additionally return a `Bool` recording whether the backend call
site was reached, so that "the backend is never invoked" claims are about
the call site itself and not mere observational independence.

Go `map` values are content-determined: iteration order is unspecified
(and randomized by the runtime), so a row map is represented by its
association list of entries together with lookup (`lookupMap`) and
content-equivalence (`mapEquivB`) operations; nothing in the model may
treat the entry order of a `RowMap` as an observable of the Go map.
-/

/-- Decidable equality of `Except` results, used to evaluate the model on
concrete inputs. -/
instance {ε α : Type} [DecidableEq ε] [DecidableEq α] : DecidableEq (Except ε α) := fun a b => by
  cases a <;> cases b
  case error.error e f => exact decidable_of_iff (e = f) (by simp)
  case error.ok e y => exact isFalse (by simp)
  case ok.error x f => exact isFalse (by simp)
  case ok.ok x y => exact decidable_of_iff (x = y) (by simp)

/-- Go strings, modelled as lists of characters. -/
abbrev GoStr := List Char

/-- ASCII case-lowering of one character, the restriction of Go
`strings.ToLower` to ASCII input. -/
def goToLowerChar : Char → Char
  | 'A' => 'a' | 'B' => 'b' | 'C' => 'c' | 'D' => 'd' | 'E' => 'e'
  | 'F' => 'f' | 'G' => 'g' | 'H' => 'h' | 'I' => 'i' | 'J' => 'j'
  | 'K' => 'k' | 'L' => 'l' | 'M' => 'm' | 'N' => 'n' | 'O' => 'o'
  | 'P' => 'p' | 'Q' => 'q' | 'R' => 'r' | 'S' => 's' | 'T' => 't'
  | 'U' => 'u' | 'V' => 'v' | 'W' => 'w' | 'X' => 'x' | 'Y' => 'y'
  | 'Z' => 'z'
  | c => c

/-- Go `strings.ToLower` on ASCII strings. -/
def goToLower (s : GoStr) : GoStr := s.map goToLowerChar

/-- Whitespace characters trimmed by Go `strings.TrimSpace` (ASCII part of
`unicode.IsSpace`): space, tab, newline, vertical tab, form feed,
carriage return. -/
def isSpaceChar (c : Char) : Bool :=
  c == ' ' || c == '\t' || c == '\n' || c == Char.ofNat 11 || c == Char.ofNat 12 || c == '\r'

/-- Remove leading whitespace. -/
def trimLeftWs : GoStr → GoStr
  | [] => []
  | c :: r => if isSpaceChar c then trimLeftWs r else c :: r

/-- Remove trailing whitespace. -/
def trimRightWs (s : GoStr) : GoStr := (trimLeftWs s.reverse).reverse

/-- Go `strings.TrimSpace`. -/
def goTrimSpace (s : GoStr) : GoStr := trimRightWs (trimLeftWs s)

/-- Go `strings.HasPrefix s pre`. -/
def hasPrefixL : GoStr → GoStr → Bool
  | _, [] => true
  | [], _ :: _ => false
  | c :: s, p :: ps => c == p && hasPrefixL s ps

/-- Go `strings.Contains s sub`: `sub` occurs as a contiguous substring
of `s`. -/
def goContains : GoStr → GoStr → Bool
  | [], sub => hasPrefixL [] sub
  | c :: t, sub => hasPrefixL (c :: t) sub || goContains t sub

/-- Go `fmt.Sprintf "%d"` on an integer. -/
def goFmtInt (n : Int) : GoStr :=
  if n < 0 then '-' :: Nat.toDigits 10 (-n).toNat else Nat.toDigits 10 n.toNat

/-- The map key `fmt.Sprintf "%d" i` used for positional parameters. -/
def natKey (n : Nat) : GoStr := Nat.toDigits 10 n

/-- Runtime values held in a scanned row (`interface{}` in the source):
nil, strings, timestamps (`time.Time`, abstracted to its tick count) and
other scalars such as integers. -/
inductive GoValue where
  | vNull : GoValue
  | vStr (s : GoStr) : GoValue
  | vTime (t : Int) : GoValue
  | vInt (n : Int) : GoValue
deriving DecidableEq

/-- The contents of one scanned row: a Go `map[string]interface{}`,
represented by its entries.  Entry order is a representation artifact,
never an observable of the Go map. -/
abbrev RowMap := List (GoStr × GoValue)

/-- Go map assignment `m[k] = v`: overwrite the binding of `k` if
present, otherwise add it. -/
def mapInsert : RowMap → GoStr → GoValue → RowMap
  | [], k, v => [(k, v)]
  | (k₀, v₀) :: r, k, v =>
    if k₀ = k then (k₀, v) :: r else (k₀, v₀) :: mapInsert r k v

/-- Go map read `m[k]`. -/
def lookupMap (m : RowMap) (k : GoStr) : Option GoValue :=
  (List.find? (fun e => e.fst == k) m).map (fun e => e.snd)

/-- One direction of Go map content containment. -/
def mapLeB (m₁ m₂ : RowMap) : Bool :=
  m₁.all (fun e => lookupMap m₂ e.fst == some e.snd)

/-- Two row maps hold exactly the same Go map content (Go maps are
content-determined; two maps with the same content are
indistinguishable). -/
def mapEquivB (m₁ m₂ : RowMap) : Bool := mapLeB m₁ m₂ && mapLeB m₂ m₁

/-- Read of the `map[string]string` of request parameters. -/
def lookupParams (m : List (GoStr × GoStr)) (k : GoStr) : Option GoStr :=
  (List.find? (fun e => e.fst == k) m).map (fun e => e.snd)

/-- The fixed blacklist `dangerousKeywords` of
`clickhouse/client.go`, in source order. -/
def dangerousKeywords : List GoStr :=
  [" drop ".toList, " delete ".toList, " insert ".toList, " update ".toList,
   " alter ".toList, " truncate ".toList, " grant ".toList, " revoke ".toList,
   " exec ".toList, " execute ".toList,
   "drop table".toList, "drop database".toList, "create table".toList,
   "create database".toList, "alter table".toList, "truncate table".toList,
   "insert into".toList]

/-- Error message of the SELECT-only check. -/
def errOnlySelect : GoStr := "only SELECT queries are allowed".toList

/-- Error message reporting a matched blacklist keyword `kw` (already
trimmed at the call site, as in the source). -/
def errForbidden (kw : GoStr) : GoStr :=
  "query contains forbidden keyword: ".toList ++ kw

/-- `Client.ValidateQuery` of `clickhouse/client.go`: lower-case and trim
the query, require the `select` prefix, then scan the space-padded text
for the first blacklisted substring (`List.find?` returns the first
element of the list satisfying the predicate, exactly as the source's
`for` loop returns on its first match). -/
def ValidateQuery (query : GoStr) : Except GoStr Unit :=
  let queryLower := goToLower (goTrimSpace query)
  if hasPrefixL queryLower "select".toList then
    match List.find? (fun kw => goContains (' ' :: (queryLower ++ [' '])) kw)
        dangerousKeywords with
    | some kw => .error (errForbidden (goTrimSpace kw))
    | none => .ok ()
  else
    .error errOnlySelect

/-- Raw answer of the opaque database backend: reported column names and
rows of scanned values (one value per reported column, in column
order). -/
structure DBResult where
  columns : List GoStr
  rows : List (List GoValue)
deriving DecidableEq

/-- The opaque backend (`c.db.QueryContext`): receives the final query
text and the positional arguments, answers with an error or a raw result
set. -/
abbrev DB := GoStr → List GoStr → Except GoStr DBResult

/-- The positional-argument binding loop of `ExecuteQuery`: for
`i := 1; i <= len(parameters); i++`, append the value of key `"i"` when
present. -/
def bindArgs (parameters : List (GoStr × GoStr)) : List GoStr :=
  (List.range parameters.length).foldl
    (fun args j =>
      match lookupParams parameters (natKey (j + 1)) with
      | some v => args ++ [v]
      | none => args)
    []

/-- Materialization of one scanned row: `rowMap[columnName] = columnValues[i]`
for each reported column in order. -/
def buildRowMap (cols : List GoStr) (vals : List GoValue) : RowMap :=
  (cols.zip vals).foldl (fun m cv => mapInsert m cv.fst cv.snd) []

/-- `SQLResult` of `clickhouse/client.go`. -/
structure SQLResult where
  Columns : List GoStr
  Rows : List RowMap
deriving DecidableEq

/-- Construction of `finalQuery` in `ExecuteQuery`: append `" LIMIT <limit>"`
when `limit > 0`, then `" OFFSET <offset>"` when `offset > 0`. -/
def appendPagination (sqlQuery : GoStr) (limit offset : Int) : GoStr :=
  sqlQuery
    ++ (if limit > 0 then " LIMIT ".toList ++ goFmtInt limit else [])
    ++ (if offset > 0 then " OFFSET ".toList ++ goFmtInt offset else [])

/-- `Client.ExecuteQuery` of `clickhouse/client.go`, against the backend
oracle `db`, with the measured wall-clock duration supplied as
`elapsedMs`.  The second component records whether the backend call site
(`c.db.QueryContext`) was reached. -/
def ExecuteQuery (db : DB) (elapsedMs : Int) (sqlQuery : GoStr)
    (parameters : List (GoStr × GoStr)) (limit offset : Int) :
    Except GoStr (SQLResult × Int) × Bool :=
  if sqlQuery = [] then
    (.error "sql_query cannot be empty".toList, false)
  else
    match ValidateQuery sqlQuery with
    | .error e => (.error ("invalid query: ".toList ++ e), false)
    | .ok _ =>
      let args := bindArgs parameters
      let finalQuery := appendPagination sqlQuery limit offset
      match db finalQuery args with
      | .error e => (.error ("failed to execute query: ".toList ++ e), true)
      | .ok r =>
        (.ok ({ Columns := r.columns,
                Rows := r.rows.map (fun vals => buildRowMap r.columns vals) },
              elapsedMs),
         true)

/-- `pb.Retailer`: optional id, name and creation timestamp; Go zero value
has every field unset. -/
structure Retailer where
  Id : Option GoStr := none
  Name : Option GoStr := none
  CreatedAt : Option Int := none
deriving DecidableEq

/-- One iteration of the column loop of `Handler.convertToRetailers`:
skip nil values, lower-case the column name, and on a recognized name
populate the field when the runtime type assertion succeeds. -/
def convertColumn (r : Retailer) (cv : GoStr × GoValue) : Retailer :=
  match cv.snd with
  | GoValue.vNull => r
  | v =>
    let columnNameLower := goToLower cv.fst
    if columnNameLower = "id".toList then
      match v with
      | GoValue.vStr s => { r with Id := some s }
      | _ => r
    else if columnNameLower = "name".toList then
      match v with
      | GoValue.vStr s => { r with Name := some s }
      | _ => r
    else if columnNameLower = "created_at".toList then
      match v with
      | GoValue.vTime t => { r with CreatedAt := some t }
      | _ => r
    else
      r

/-- `Handler.convertToRetailers` of the gRPC handler: one `Retailer` per
row, populated from the row's entries. -/
def convertToRetailers (result : SQLResult) : List Retailer :=
  result.Rows.map (fun row => row.foldl convertColumn {})

/-- `pb.GetRetailersRequest`. -/
structure GetRetailersRequest where
  SqlQuery : GoStr
  Parameters : List (GoStr × GoStr)
  Limit : Int
  Offset : Int

/-- `pb.GetRetailersResponse`; the Go zero value of an omitted field is
the empty list, `0`, or the empty string. -/
structure GetRetailersResponse where
  Retailers : List Retailer
  Count : Int
  ExecutionTimeMs : Int
  Error : GoStr
deriving DecidableEq

/-- gRPC status codes used by the handler. -/
inductive GrpcCode where
  | invalidArgument : GrpcCode
  | internal : GrpcCode
deriving DecidableEq

/-- A transport-level gRPC error (`status.Error`). -/
structure GrpcStatus where
  code : GrpcCode
  message : GoStr
deriving DecidableEq

/-- `Handler.GetRetailers` of the gRPC handler: transport-level
invalid-argument rejections, the 10000 limit cap, delegation to
`ExecuteQuery`, and the embedded-error success envelope on executor
failure.  The second component records whether the executor (and hence
possibly the backend) was invoked.  The source's replacement of a nil
retailer slice by an empty one is the identity in this model, where the
mapper already returns a (possibly empty) list. -/
def GetRetailers (db : DB) (elapsedMs : Int) (req : GetRetailersRequest) :
    Except GrpcStatus GetRetailersResponse × Bool :=
  if req.SqlQuery = [] then
    (.error ⟨GrpcCode.invalidArgument, "sql_query cannot be empty".toList⟩, false)
  else if req.Limit < 0 then
    (.error ⟨GrpcCode.invalidArgument, "limit cannot be negative".toList⟩, false)
  else if req.Offset < 0 then
    (.error ⟨GrpcCode.invalidArgument, "offset cannot be negative".toList⟩, false)
  else
    let lim := if req.Limit > 10000 then (10000 : Int) else req.Limit
    match (ExecuteQuery db elapsedMs req.SqlQuery req.Parameters lim req.Offset).fst with
    | .error e =>
      (.ok { Retailers := [], Count := 0, ExecutionTimeMs := 0, Error := e }, true)
    | .ok (result, executionTime) =>
      let retailers := convertToRetailers result
      (.ok { Retailers := retailers, Count := retailers.length,
             ExecutionTimeMs := executionTime, Error := [] }, true)

/-! ## Spec-side definitions

Definitions written from the specification's words, to be compared with
the behaviour of the embedded source functions. -/

/-- The normalized query text the validator reasons about: lower-cased
and trimmed. -/
def normalizeQuery (q : GoStr) : GoStr := goToLower (goTrimSpace q)

/-- Spec-side: keyword text `w` occurs in text `s` delimited by single
spaces or by the string boundaries (the boundaries of `s` count as
spaces, which is what padding `s` with one space on each side
expresses). -/
def delimitedOccursB (w s : GoStr) : Bool :=
  goContains (' ' :: (s ++ [' '])) (' ' :: (w ++ [' ']))

/-- The space-padded single-word entries of the blacklist, in source
order. -/
def paddedKeywords : List GoStr :=
  [" drop ".toList, " delete ".toList, " insert ".toList, " update ".toList,
   " alter ".toList, " truncate ".toList, " grant ".toList, " revoke ".toList,
   " exec ".toList, " execute ".toList]

/-- The compound-phrase entries of the blacklist (no surrounding
spaces), in source order. -/
def compoundKeywords : List GoStr :=
  ["drop table".toList, "drop database".toList, "create table".toList,
   "create database".toList, "alter table".toList, "truncate table".toList,
   "insert into".toList]

/-- Spec-side description of the bound argument list (claim C3): the
values of the keys `"1"` through `"count(parameters)"` that are present
in the mapping, in increasing index order; an absent index contributes
nothing. -/
def specArgs (parameters : List (GoStr × GoStr)) : List GoStr :=
  (List.range' 1 parameters.length).filterMap
    (fun i => lookupParams parameters (natKey i))

/-- A backend oracle answering every query with an empty result set. -/
def emptyDB : DB := fun _ _ => .ok { columns := [], rows := [] }

/-- A backend oracle failing every query. -/
def failDB : DB := fun _ _ => .error "boom".toList

/-- A backend oracle reporting columns `ID, NAME` and one row. -/
def dbColsAB : DB := fun _ _ =>
  .ok { columns := ["ID".toList, "NAME".toList],
        rows := [[GoValue.vStr "r1".toList, GoValue.vStr "Acme".toList]] }

/-- A backend oracle reporting the same binding of values to columns,
with the columns in the opposite order. -/
def dbColsBA : DB := fun _ _ =>
  .ok { columns := ["NAME".toList, "ID".toList],
        rows := [[GoValue.vStr "Acme".toList, GoValue.vStr "r1".toList]] }

/-- The result `ExecuteQuery` builds from the answer of `dbColsAB`. -/
def resAB : SQLResult :=
  { Columns := ["ID".toList, "NAME".toList],
    Rows := [[("ID".toList, GoValue.vStr "r1".toList),
              ("NAME".toList, GoValue.vStr "Acme".toList)]] }

/-! ## Helper lemmas on the string model -/

/-- Lower-casing does not create or destroy whitespace. -/
lemma isSpaceChar_goToLowerChar (c : Char) :
    isSpaceChar (goToLowerChar c) = isSpaceChar c := by
  unfold goToLowerChar
  split <;> rfl

/-- Lower-casing commutes with removing leading whitespace. -/
lemma trimLeftWs_goToLower (s : GoStr) :
    trimLeftWs (goToLower s) = goToLower (trimLeftWs s) := by
  induction s with
  | nil => rfl
  | cons c r ih =>
    simp only [goToLower, List.map_cons, trimLeftWs, isSpaceChar_goToLowerChar]
    by_cases h : isSpaceChar c
    · simpa [h] using ih
    · simp [h, goToLower]

/-- Lower-casing commutes with reversal. -/
lemma goToLower_reverse (s : GoStr) :
    goToLower s.reverse = (goToLower s).reverse := by
  simp [goToLower, List.map_reverse]

/-- Lower-casing commutes with removing trailing whitespace. -/
lemma trimRightWs_goToLower (s : GoStr) :
    trimRightWs (goToLower s) = goToLower (trimRightWs s) := by
  simp only [trimRightWs, ← goToLower_reverse, trimLeftWs_goToLower]

/-- The validator's normalization in terms of trimming the lower-cased
text. -/
lemma goToLower_goTrimSpace (s : GoStr) :
    goToLower (goTrimSpace s) = trimRightWs (trimLeftWs (goToLower s)) := by
  simp only [goTrimSpace, trimRightWs_goToLower, trimLeftWs_goToLower]

/-- Characterization of the prefix test. -/
lemma hasPrefixL_iff (s p : GoStr) :
    hasPrefixL s p = true ↔ ∃ r, s = p ++ r := by
  induction p generalizing s with
  | nil =>
    constructor
    · intro _; exact ⟨s, rfl⟩
    · intro _; cases s <;> rfl
  | cons ph pt ih =>
    cases s with
    | nil =>
      simp only [hasPrefixL]
      constructor
      · intro h; cases h
      · rintro ⟨r, hr⟩; cases hr
    | cons c t =>
      simp only [hasPrefixL, Bool.and_eq_true, beq_iff_eq, ih]
      constructor
      · rintro ⟨rfl, r, rfl⟩; exact ⟨r, rfl⟩
      · rintro ⟨r, hr⟩
        injection hr with h1 h2
        exact ⟨h1, r, h2⟩

/-- Removing leading whitespace skips an all-whitespace block. -/
lemma trimLeftWs_append_all_space (a b : GoStr)
    (h : ∀ c ∈ a, isSpaceChar c = true) :
    trimLeftWs (a ++ b) = trimLeftWs b := by
  induction a with
  | nil => rfl
  | cons c r ih =>
    have hc : isSpaceChar c = true := h c (by simp)
    simp only [List.cons_append, trimLeftWs, hc, if_true]
    exact ih (fun x hx => h x (by simp [hx]))

/-- Removing leading whitespace stops inside the first block when that
block does not vanish. -/
lemma trimLeftWs_append_of_ne_nil (a b : GoStr) (h : trimLeftWs a ≠ []) :
    trimLeftWs (a ++ b) = trimLeftWs a ++ b := by
  induction a with
  | nil => exact absurd rfl h
  | cons c r ih =>
    by_cases hc : isSpaceChar c
    · simp only [List.cons_append, trimLeftWs, hc, if_true] at h ⊢
      exact ih h
    · simp [trimLeftWs, hc]

/-- A string trimmed to nothing was all whitespace. -/
lemma all_space_of_trimLeftWs_eq_nil (a : GoStr) (h : trimLeftWs a = []) :
    ∀ c ∈ a, isSpaceChar c = true := by
  induction a with
  | nil => intro c hc; cases hc
  | cons c r ih =>
    by_cases hc : isSpaceChar c
    · simp only [trimLeftWs, hc, if_true] at h
      intro x hx
      rcases List.mem_cons.mp hx with rfl | hx
      · exact hc
      · exact ih h x hx
    · simp [trimLeftWs, hc] at h

/-- Every string is its left-trim preceded by whitespace. -/
lemma exists_trimLeft_decomp (s : GoStr) :
    ∃ w, s = w ++ trimLeftWs s ∧ ∀ c ∈ w, isSpaceChar c = true := by
  induction s with
  | nil => exact ⟨[], rfl, by intro c hc; cases hc⟩
  | cons c r ih =>
    by_cases hc : isSpaceChar c
    · obtain ⟨w, hw, hsp⟩ := ih
      refine ⟨c :: w, ?_, ?_⟩
      · simp only [trimLeftWs, hc, if_true, List.cons_append]
        exact congrArg (c :: ·) hw
      · intro x hx
        rcases List.mem_cons.mp hx with rfl | hx
        · exact hc
        · exact hsp x hx
    · exact ⟨[], by simp [trimLeftWs, hc], by intro x hx; cases hx⟩

/-- Every string is its right-trim followed by whitespace. -/
lemma exists_trimRight_decomp (s : GoStr) :
    ∃ w, s = trimRightWs s ++ w ∧ ∀ c ∈ w, isSpaceChar c = true := by
  obtain ⟨w, hw, hsp⟩ := exists_trimLeft_decomp s.reverse
  refine ⟨w.reverse, ?_, ?_⟩
  · have := congrArg List.reverse hw
    simpa [trimRightWs] using this
  · intro c hc
    exact hsp c (List.mem_reverse.mp hc)

/-- Trimming trailing whitespace does not change whether the text begins
with `select` (the word `select` neither starts nor ends with
whitespace). -/
lemma hasPrefixL_trimRightWs_select (s : GoStr) :
    hasPrefixL (trimRightWs s) "select".toList = hasPrefixL s "select".toList := by
  rw [Bool.eq_iff_iff, hasPrefixL_iff, hasPrefixL_iff]
  constructor
  · rintro ⟨r, hr⟩
    obtain ⟨w, hw, _⟩ := exists_trimRight_decomp s
    exact ⟨r ++ w, by rw [hw, hr, List.append_assoc]⟩
  · rintro ⟨r, rfl⟩
    by_cases hr : trimLeftWs r.reverse = []
    · refine ⟨[], ?_⟩
      have hall := all_space_of_trimLeftWs_eq_nil r.reverse hr
      have : trimRightWs ("select".toList ++ r)
          = (trimLeftWs (r.reverse ++ "select".toList.reverse)).reverse := by
        simp [trimRightWs, List.reverse_append]
      rw [this, trimLeftWs_append_all_space r.reverse _ hall]
      decide
    · refine ⟨(trimLeftWs r.reverse).reverse, ?_⟩
      have : trimRightWs ("select".toList ++ r)
          = (trimLeftWs (r.reverse ++ "select".toList.reverse)).reverse := by
        simp [trimRightWs, List.reverse_append]
      rw [this, trimLeftWs_append_of_ne_nil r.reverse _ hr]
      simp

/-- The validator's `select` prefix test agrees with the claim's reading
"after lower-casing and ignoring leading whitespace". -/
lemma select_prefix_norm (q : GoStr) :
    hasPrefixL (goToLower (goTrimSpace q)) "select".toList
      = hasPrefixL (trimLeftWs (goToLower q)) "select".toList := by
  rw [goToLower_goTrimSpace, hasPrefixL_trimRightWs_select]

/-- Characterization of the substring test. -/
lemma goContains_iff (s sub : GoStr) :
    goContains s sub = true ↔ ∃ a b, s = a ++ (sub ++ b) := by
  induction s with
  | nil =>
    simp only [goContains, hasPrefixL_iff]
    constructor
    · rintro ⟨r, hr⟩; exact ⟨[], r, hr⟩
    · rintro ⟨a, b, hab⟩
      rcases List.append_eq_nil.mp hab.symm with ⟨rfl, h2⟩
      exact ⟨b, h2.symm⟩
  | cons c t ih =>
    simp only [goContains, Bool.or_eq_true, hasPrefixL_iff, ih]
    constructor
    · rintro (⟨r, hr⟩ | ⟨a, b, hab⟩)
      · exact ⟨[], r, hr⟩
      · exact ⟨c :: a, b, by rw [List.cons_append, hab]⟩
    · rintro ⟨a, b, hab⟩
      cases a with
      | nil => exact Or.inl ⟨b, by simpa using hab⟩
      | cons a₀ at' =>
        injection hab with h1 h2
        exact Or.inr ⟨at', b, h2⟩

/-- The empty string is contained everywhere. -/
lemma goContains_nil (s : GoStr) : goContains s [] = true := by
  cases s <;> rfl

/-- A space-delimited occurrence is in particular an occurrence. -/
lemma goContains_delimited_weaken (s k : GoStr)
    (h : goContains s (' ' :: (k ++ [' '])) = true) :
    goContains s k = true := by
  rw [goContains_iff] at h ⊢
  obtain ⟨a, b, hab⟩ := h
  refine ⟨a ++ [' '], [' '] ++ b, ?_⟩
  rw [hab]
  simp

/-- An occurrence in the space-padded text of a pattern that neither
starts nor ends with a space lies entirely inside the unpadded text. -/
lemma goContains_pad (s p : GoStr) (hh : p.head? ≠ some ' ')
    (hl : p.reverse.head? ≠ some ' ')
    (h : goContains (' ' :: (s ++ [' '])) p = true) :
    goContains s p = true := by
  rw [goContains_iff] at h ⊢
  obtain ⟨a, b, hab⟩ := h
  cases p with
  | nil => exact ⟨[], s, by simp⟩
  | cons p₀ pt =>
    cases a with
    | nil =>
      simp only [List.nil_append, List.cons_append] at hab
      injection hab with h1 _
      exact absurd (by simp [← h1]) hh
    | cons x a' =>
      simp only [List.cons_append] at hab
      injection hab with h1 h2
      rcases List.eq_nil_or_concat b with rfl | ⟨b', y, rfl⟩
      · exfalso
        have hlast := congrArg List.getLast? h2
        simp only [List.append_nil] at hlast
        rw [List.getLast?_concat,
          List.getLast?_append_of_ne_nil a' (List.cons_ne_nil p₀ pt)] at hlast
        rw [List.head?_reverse] at hl
        exact hl hlast.symm
      · have h2' : s ++ [' '] = (a' ++ p₀ :: (pt ++ b')) ++ [y] := by
          rw [h2]; simp
        obtain ⟨h3, _⟩ := List.append_inj' h2' (by simp)
        exact ⟨a', b', by rw [h3]; simp⟩

/-- The blacklist splits into its space-padded single words followed by
its compound phrases. -/
lemma dangerousKeywords_split :
    dangerousKeywords = paddedKeywords ++ compoundKeywords := rfl

/-- For a space-padded blacklist entry, the validator's padded substring
test is exactly a space-delimited occurrence of the keyword's word. -/
lemma padded_match_eq_delimited (s : GoStr) :
    ∀ k ∈ paddedKeywords,
      goContains (' ' :: (s ++ [' '])) k = delimitedOccursB (goTrimSpace k) s := by
  intro k hk
  fin_cases hk <;> rfl

/-- Any blacklist entry whose word occurs space-delimited in the
normalized text is matched by the validator's padded substring test. -/
lemma keyword_match_of_delimited (s : GoStr) :
    ∀ k ∈ dangerousKeywords, delimitedOccursB (goTrimSpace k) s = true →
      goContains (' ' :: (s ++ [' '])) k = true := by
  intro k hk h
  fin_cases hk <;>
    first
      | exact h
      | exact goContains_delimited_weaken _ _ h

/-- A compound blacklist phrase absent from the normalized text is also
absent from its space-padded form. -/
lemma compound_nomatch (s : GoStr) :
    ∀ k ∈ compoundKeywords, goContains s k = false →
      goContains (' ' :: (s ++ [' '])) k = false := by
  intro k hk h
  cases hc : goContains (' ' :: (s ++ [' '])) k with
  | false => rfl
  | true =>
    have : goContains s k = true := by
      fin_cases hk <;> exact goContains_pad s _ (by decide) (by decide) hc
    rw [this] at h
    cases h


/-! ## Helper lemmas on the map model and the binding loop -/

/-- Inserting an absent key appends the binding. -/
lemma mapInsert_eq_append (m : RowMap) (k : GoStr) (v : GoValue)
    (h : lookupMap m k = none) :
    mapInsert m k v = m ++ [(k, v)] := by
  induction m with
  | nil => rfl
  | cons e r ih =>
    obtain ⟨k₀, v₀⟩ := e
    by_cases hk : k₀ = k
    · exfalso
      rw [lookupMap, List.find?_cons] at h
      have hkt : ((k₀, v₀).1 == k) = true := by simpa using hk
      rw [hkt] at h
      simp at h
    · simp only [mapInsert, if_neg hk, List.cons_append, List.cons.injEq, true_and]
      apply ih
      rw [lookupMap, List.find?_cons] at h
      have hne : ((k₀, v₀).1 == k) = false := by simpa using hk
      rw [hne] at h
      exact h

lemma lookupMap_append_of_none (m₁ m₂ : RowMap) (k : GoStr)
    (h : lookupMap m₁ k = none) :
    lookupMap (m₁ ++ m₂) k = lookupMap m₂ k := by
  unfold lookupMap at h ⊢
  rw [List.find?_append]
  have hf : List.find? (fun e => e.fst == k) m₁ = none := by
    cases hf : List.find? (fun e => e.fst == k) m₁ with
    | none => rfl
    | some e => rw [hf] at h; simp at h
  rw [hf, Option.none_or]

lemma foldl_mapInsert_fresh (l : List (GoStr × GoValue)) :
    ∀ (m : RowMap), (∀ e ∈ l, lookupMap m e.fst = none) →
      (l.map Prod.fst).Nodup →
      l.foldl (fun m cv => mapInsert m cv.fst cv.snd) m = m ++ l := by
  induction l with
  | nil => intro m _ _; simp
  | cons e rest ih =>
    intro m hfresh hnd
    obtain ⟨k, v⟩ := e
    simp only [List.map_cons, List.nodup_cons] at hnd
    simp only [List.foldl_cons]
    rw [mapInsert_eq_append m k v (hfresh (k, v) (by simp))]
    rw [ih (m ++ [(k, v)]) ?_ hnd.2]
    · simp
    · intro x hx
      have h1 : lookupMap m x.fst = none := hfresh x (by simp [hx])
      have h2 : (k == x.fst) = false := by
        have : x.fst ≠ k := by
          intro hek
          exact hnd.1 (hek ▸ List.mem_map_of_mem Prod.fst hx)
        exact beq_eq_false_iff_ne.mpr (fun he => this he.symm)
      rw [lookupMap_append_of_none m _ x.fst h1]
      rw [lookupMap, List.find?_cons]
      rw [show (((k, v) : GoStr × GoValue).1 == x.fst) = false from h2]
      rfl

lemma buildRowMap_eq_zip (cols : List GoStr) (vals : List GoValue)
    (hnd : cols.Nodup) (hlen : vals.length = cols.length) :
    buildRowMap cols vals = cols.zip vals := by
  unfold buildRowMap
  rw [foldl_mapInsert_fresh (cols.zip vals) [] (by intro e _; rfl) ?_]
  · rfl
  · rw [List.map_fst_zip cols vals (by omega)]
    exact hnd

lemma lookup_zip_get (cols : List GoStr) (vals : List GoValue)
    (hnd : cols.Nodup) (j : Nat) (hj : j < cols.length) (hj' : j < vals.length) :
    lookupMap (cols.zip vals) (cols.get ⟨j, hj⟩) = some (vals.get ⟨j, hj'⟩) := by
  induction cols generalizing vals j with
  | nil => exact absurd hj (Nat.not_lt_zero j)
  | cons c cs ih =>
    cases vals with
    | nil => exact absurd hj' (Nat.not_lt_zero j)
    | cons v vs =>
      cases j with
      | zero =>
        rw [List.zip_cons_cons, lookupMap, List.find?_cons]
        have hkt : (((c, v) : GoStr × GoValue).1 == (c :: cs).get ⟨0, hj⟩) = true := by
          simp [List.get]
        rw [hkt]
        rfl
      | succ n =>
        have hc : c ∉ cs := (List.nodup_cons.mp hnd).1
        have hnd2 : cs.Nodup := (List.nodup_cons.mp hnd).2
        have hn : n < cs.length := Nat.lt_of_succ_lt_succ hj
        have hn2 : n < vs.length := Nat.lt_of_succ_lt_succ hj'
        have hget : ((c :: cs).get ⟨n + 1, hj⟩) = cs.get ⟨n, hn⟩ := rfl
        rw [List.zip_cons_cons, lookupMap, List.find?_cons, hget]
        have hne : (((c, v) : GoStr × GoValue).1 == cs.get ⟨n, hn⟩) = false := by
          simp only [beq_eq_false_iff_ne]
          intro heq
          exact hc (heq ▸ List.get_mem cs n hn)
        rw [hne]
        exact ih vs hnd2 n hn hn2

lemma foldl_append_filterMap {α : Type} (f : α → Option GoStr)
    (l : List α) (acc : List GoStr) :
    l.foldl (fun args j =>
        match f j with
        | some v => args ++ [v]
        | none => args) acc
      = acc ++ l.filterMap f := by
  induction l generalizing acc with
  | nil => simp
  | cons x xs ih =>
    simp only [List.foldl_cons, List.filterMap_cons]
    cases hf : f x with
    | none => exact ih acc
    | some v => exact (ih (acc ++ [v])).trans (by simp)

/-! ## Claims -/

/-- C3: for every parameter mapping, the positional argument list bound
by the Executor equals, in increasing index order, the values of the
keys `"1"` through `"count(parameters)"` that are present in the
mapping; an absent index contributes nothing and raises no error (the
binding loop is total and silently skips gaps). -/
theorem C3_parameter_binding (parameters : List (GoStr × GoStr)) :
    bindArgs parameters = specArgs parameters := by
  unfold bindArgs specArgs
  rw [foldl_append_filterMap (fun j => lookupParams parameters (natKey (j + 1)))]
  rw [List.range'_eq_map_range, List.filterMap_map, List.nil_append]
  congr 1
  funext j
  simp [Function.comp, Nat.add_comm]

/-- C5: every SQL string that, after lower-casing and ignoring leading
whitespace, does not begin with `select` is rejected by the Validator,
and the Executor propagates the rejection as an error. -/
theorem C5_non_select_rejected (q : GoStr)
    (h : hasPrefixL (trimLeftWs (goToLower q)) "select".toList = false) :
    ValidateQuery q = .error errOnlySelect ∧
      ∀ (db : DB) (e : Int) (parameters : List (GoStr × GoStr)) (limit offset : Int),
        ∃ msg, (ExecuteQuery db e q parameters limit offset).fst = .error msg := by
  have hv : ValidateQuery q = .error errOnlySelect := by
    have hp : hasPrefixL (goToLower (goTrimSpace q)) "select".toList = false :=
      (select_prefix_norm q).trans h
    simp only [ValidateQuery]
    rw [hp]
    rfl
  refine ⟨hv, ?_⟩
  intro db e parameters limit offset
  by_cases hq : q = []
  · exact ⟨"sql_query cannot be empty".toList, by simp [ExecuteQuery, hq]⟩
  · exact ⟨"invalid query: ".toList ++ errOnlySelect, by simp [ExecuteQuery, hq, hv]⟩

/-- Witness for C5 at the concrete query `update retailers set name`. -/
theorem C5_non_select_rejected_witness :
    ValidateQuery "update retailers set name".toList = .error errOnlySelect ∧
      ∃ msg, (ExecuteQuery emptyDB 0 "update retailers set name".toList [] 0 0).fst
        = .error msg := by
  have h := C5_non_select_rejected "update retailers set name".toList (by decide)
  exact ⟨h.1, h.2 emptyDB 0 [] 0 0⟩

/-- C10: for every SQL string that is empty or that the Validator
rejects, `ExecuteQuery` returns an error with the backend call site
unreached (flag `false`), so no rejected statement can reach the
database. -/
theorem C10_rejected_query_never_reaches_backend (db : DB) (e : Int) (q : GoStr)
    (parameters : List (GoStr × GoStr)) (limit offset : Int)
    (h : q = [] ∨ ∃ m, ValidateQuery q = .error m) :
    ∃ msg, ExecuteQuery db e q parameters limit offset = (.error msg, false) := by
  by_cases hq : q = []
  · exact ⟨"sql_query cannot be empty".toList, by simp [ExecuteQuery, hq]⟩
  · rcases h with rfl | ⟨m, hm⟩
    · exact absurd rfl hq
    · exact ⟨"invalid query: ".toList ++ m, by simp [ExecuteQuery, hq, hm]⟩

/-- Witness for C10 at the concrete rejected query `drop table retailers`. -/
theorem C10_rejected_query_never_reaches_backend_witness :
    ∃ msg, ExecuteQuery emptyDB 0 "drop table retailers".toList [] 5 0
      = (.error msg, false) :=
  C10_rejected_query_never_reaches_backend emptyDB 0 _ [] 5 0
    (Or.inr ⟨errOnlySelect, by decide⟩)

/-- C8: a request with empty `sql_text`, negative limit or negative
offset is rejected with a transport-level invalid-argument error and the
Executor (and hence the backend) is never invoked (flag `false`). -/
theorem C8_invalid_request_rejected_before_executor (db : DB) (e : Int)
    (req : GetRetailersRequest)
    (h : req.SqlQuery = [] ∨ req.Limit < 0 ∨ req.Offset < 0) :
    ∃ st : GrpcStatus, GetRetailers db e req = (.error st, false) ∧
      st.code = GrpcCode.invalidArgument := by
  by_cases hq : req.SqlQuery = []
  · refine ⟨⟨GrpcCode.invalidArgument, "sql_query cannot be empty".toList⟩, ?_, rfl⟩
    simp [GetRetailers, hq]
  · by_cases hl : req.Limit < 0
    · refine ⟨⟨GrpcCode.invalidArgument, "limit cannot be negative".toList⟩, ?_, rfl⟩
      simp [GetRetailers, hq, hl]
    · have ho : req.Offset < 0 := by tauto
      refine ⟨⟨GrpcCode.invalidArgument, "offset cannot be negative".toList⟩, ?_, rfl⟩
      simp [GetRetailers, hq, hl, ho]

/-- Witness for C8 at a concrete request with negative limit. -/
theorem C8_invalid_request_rejected_before_executor_witness :
    ∃ st : GrpcStatus,
      GetRetailers emptyDB 0
          { SqlQuery := "select 1".toList, Parameters := [], Limit := -1, Offset := 0 }
        = (.error st, false) ∧ st.code = GrpcCode.invalidArgument :=
  C8_invalid_request_rejected_before_executor emptyDB 0 _
    (Or.inr (Or.inl (by decide)))

/-- C2: when the request passes input validation but the Executor fails,
the facade returns a transport-level success whose envelope carries the
error message, with no retailers, count 0 and execution time 0 — never a
transport failure and never partial results. -/
theorem C2_executor_failure_embedded_in_success (db : DB) (e : Int)
    (req : GetRetailersRequest) (msg : GoStr)
    (hq : req.SqlQuery ≠ []) (hl : 0 ≤ req.Limit) (ho : 0 ≤ req.Offset)
    (hex : (ExecuteQuery db e req.SqlQuery req.Parameters
        (if req.Limit > 10000 then (10000 : Int) else req.Limit) req.Offset).fst
      = .error msg) :
    GetRetailers db e req
      = (.ok { Retailers := [], Count := 0, ExecutionTimeMs := 0, Error := msg },
         true) := by
  simp only [GetRetailers, if_neg hq, if_neg (not_lt.mpr hl), if_neg (not_lt.mpr ho)]
  rw [hex]

/-- Witness for C2 with a failing backend and the query `select 1`. -/
theorem C2_executor_failure_embedded_in_success_witness :
    GetRetailers failDB 0
        { SqlQuery := "select 1".toList, Parameters := [], Limit := 0, Offset := 0 }
      = (.ok { Retailers := [], Count := 0, ExecutionTimeMs := 0,
               Error := "failed to execute query: boom".toList },
         true) :=
  C2_executor_failure_embedded_in_success failDB 0 _ _
    (by decide) (by decide) (by decide) (by decide)

/-! ## Helper lemmas on the mapper -/

/-- A string-typed value under a column lower-casing to `id` populates
the `Id` field. -/
lemma convertColumn_id (r : Retailer) (c s : GoStr)
    (h : goToLower c = "id".toList) :
    convertColumn r (c, GoValue.vStr s) = { r with Id := some s } := by
  simp [convertColumn, h]

/-- A string-typed value under a column lower-casing to `name` populates
the `Name` field. -/
lemma convertColumn_name (r : Retailer) (c s : GoStr)
    (h : goToLower c = "name".toList) :
    convertColumn r (c, GoValue.vStr s) = { r with Name := some s } := by
  simp [convertColumn, h]

/-- A timestamp-typed value under a column lower-casing to `created_at`
populates the `CreatedAt` field. -/
lemma convertColumn_created_at (r : Retailer) (c : GoStr) (t : Int)
    (h : goToLower c = "created_at".toList) :
    convertColumn r (c, GoValue.vTime t) = { r with CreatedAt := some t } := by
  simp [convertColumn, h]

/-- A column with an unrecognized name is ignored, whatever its value. -/
lemma convertColumn_unknown (r : Retailer) (c : GoStr) (v : GoValue)
    (h1 : goToLower c ≠ "id".toList) (h2 : goToLower c ≠ "name".toList)
    (h3 : goToLower c ≠ "created_at".toList) :
    convertColumn r (c, v) = r := by
  replace h1 : goToLower c ≠ ['i', 'd'] := h1
  replace h2 : goToLower c ≠ ['n', 'a', 'm', 'e'] := h2
  replace h3 : goToLower c ≠ ['c', 'r', 'e', 'a', 't', 'e', 'd', '_', 'a', 't'] := h3
  cases v <;> simp [convertColumn, h1, h2, h3]

/-- A non-string value under an `id` column leaves the record unchanged. -/
lemma convertColumn_id_wrong (r : Retailer) (c : GoStr)
    (h : goToLower c = "id".toList) :
    convertColumn r (c, GoValue.vInt 5) = r := by
  simp [convertColumn, h]

/-- A non-string value under a `name` column leaves the record unchanged. -/
lemma convertColumn_name_wrong (r : Retailer) (c : GoStr)
    (h : goToLower c = "name".toList) :
    convertColumn r (c, GoValue.vTime 3) = r := by
  simp [convertColumn, h]

/-- A non-timestamp value under a `created_at` column leaves the record
unchanged. -/
lemma convertColumn_created_at_wrong (r : Retailer) (c : GoStr) (s : GoStr)
    (h : goToLower c = "created_at".toList) :
    convertColumn r (c, GoValue.vStr s) = r := by
  simp [convertColumn, h]

/-- C9: round-trip of the Result Mapper — a backend row binding columns
`ID` to `r1`, `NAME` to `Acme` and `CREATED_AT` to a timestamp `t`
(under any column-name casing) maps to a record with those three fields
set; an unrecognized column is ignored; a value of the wrong runtime
type leaves the field unset; and the mapper is total, producing exactly
one record per row. -/
theorem C9_mapper_roundtrip :
    (∀ (cs : List GoStr) (c₁ c₂ c₃ : GoStr) (t : Int),
        goToLower c₁ = "id".toList → goToLower c₂ = "name".toList →
        goToLower c₃ = "created_at".toList →
        convertToRetailers
            { Columns := cs,
              Rows := [[(c₁, GoValue.vStr "r1".toList),
                        (c₂, GoValue.vStr "Acme".toList),
                        (c₃, GoValue.vTime t)]] }
          = [{ Id := some "r1".toList, Name := some "Acme".toList,
               CreatedAt := some t }]) ∧
    (∀ (cs : List GoStr) (row : RowMap) (extra : GoStr) (v : GoValue),
        goToLower extra ≠ "id".toList → goToLower extra ≠ "name".toList →
        goToLower extra ≠ "created_at".toList →
        convertToRetailers { Columns := cs, Rows := [row ++ [(extra, v)]] }
          = convertToRetailers { Columns := cs, Rows := [row] }) ∧
    (∀ (cs : List GoStr) (c₁ c₂ c₃ : GoStr),
        goToLower c₁ = "id".toList → goToLower c₂ = "name".toList →
        goToLower c₃ = "created_at".toList →
        convertToRetailers
            { Columns := cs,
              Rows := [[(c₁, GoValue.vInt 5), (c₂, GoValue.vTime 3),
                        (c₃, GoValue.vStr "x".toList)]] }
          = [{ Id := none, Name := none, CreatedAt := none }]) ∧
    (∀ result : SQLResult, (convertToRetailers result).length = result.Rows.length) := by
  refine ⟨?_, ?_, ?_, ?_⟩
  · intro cs c₁ c₂ c₃ t h1 h2 h3
    simp only [convertToRetailers, List.map, List.foldl]
    rw [convertColumn_id _ _ _ h1, convertColumn_name _ _ _ h2,
      convertColumn_created_at _ _ _ h3]
  · intro cs row extra v h1 h2 h3
    simp only [convertToRetailers, List.map, List.foldl_append, List.foldl]
    rw [convertColumn_unknown _ _ _ h1 h2 h3]
  · intro cs c₁ c₂ c₃ h1 h2 h3
    simp only [convertToRetailers, List.map, List.foldl]
    rw [convertColumn_id_wrong _ _ h1, convertColumn_name_wrong _ _ h2,
      convertColumn_created_at_wrong _ _ _ h3]
  · intro result
    simp [convertToRetailers]

/-- Witness for C9 at concrete upper-case and mixed-case columns. -/
theorem C9_mapper_roundtrip_witness :
    convertToRetailers
        { Columns := [],
          Rows := [[("ID".toList, GoValue.vStr "r1".toList),
                    ("NAME".toList, GoValue.vStr "Acme".toList),
                    ("CREATED_AT".toList, GoValue.vTime 99)]] }
      = [{ Id := some "r1".toList, Name := some "Acme".toList,
           CreatedAt := some (99 : Int) }] ∧
    convertToRetailers
        { Columns := [],
          Rows := [[("id".toList, GoValue.vStr "a".toList),
                    ("extra_col".toList, GoValue.vStr "z".toList)]] }
      = convertToRetailers
        { Columns := [], Rows := [[("id".toList, GoValue.vStr "a".toList)]] } ∧
    convertToRetailers
        { Columns := [],
          Rows := [[("Id".toList, GoValue.vInt 5), ("Name".toList, GoValue.vTime 3),
                    ("Created_At".toList, GoValue.vStr "x".toList)]] }
      = [{ Id := none, Name := none, CreatedAt := none }] ∧
    (convertToRetailers { Columns := [], Rows := [[], []] }).length
      = ({ Columns := [], Rows := [[], []] } : SQLResult).Rows.length := by
  obtain ⟨h1, h2, h3, h4⟩ := C9_mapper_roundtrip
  exact ⟨h1 [] "ID".toList "NAME".toList "CREATED_AT".toList 99
          (by decide) (by decide) (by decide),
        h2 [] [("id".toList, GoValue.vStr "a".toList)] "extra_col".toList
          (GoValue.vStr "z".toList) (by decide) (by decide) (by decide),
        h3 [] "Id".toList "Name".toList "Created_At".toList
          (by decide) (by decide) (by decide),
        h4 { Columns := [], Rows := [[], []] }⟩

/-- C4 counterexample: in `select backdrop tablex from t` every
blacklisted keyword occurs at most embedded inside longer identifiers
(no space-delimited occurrence of any keyword), the query starts with
`select`, and yet the Validator rejects it, because the compound
blacklist entry `drop table` is matched as a raw substring of
`backdrop tablex`. -/
theorem C4_counterexample :
    hasPrefixL (normalizeQuery "select backdrop tablex from t".toList)
        "select".toList = true ∧
    dangerousKeywords.all
        (fun k => !(delimitedOccursB (goTrimSpace k)
          (normalizeQuery "select backdrop tablex from t".toList))) = true ∧
    ValidateQuery "select backdrop tablex from t".toList
      = .error (errForbidden "drop table".toList) := by
  refine ⟨by decide, by decide, by decide⟩

/-- C4 amended: the space-padding protects only the space-padded
single-word blacklist entries.  A query that starts with `select`, in
which no padded keyword occurs space-delimited (so occurrences embedded
in longer identifiers are fine), and in which no compound blacklist
phrase occurs as a raw substring of the normalized text, is accepted. -/
theorem C4_amended (q : GoStr)
    (hsel : hasPrefixL (normalizeQuery q) "select".toList = true)
    (hpad : ∀ k ∈ paddedKeywords,
      delimitedOccursB (goTrimSpace k) (normalizeQuery q) = false)
    (hcomp : ∀ k ∈ compoundKeywords, goContains (normalizeQuery q) k = false) :
    ValidateQuery q = .ok () := by
  have hnone : List.find?
      (fun kw => goContains (' ' :: (normalizeQuery q ++ [' '])) kw)
      dangerousKeywords = none := by
    rw [List.find?_eq_none]
    intro k hk
    rw [dangerousKeywords_split, List.mem_append] at hk
    rcases hk with hk | hk
    · rw [padded_match_eq_delimited (normalizeQuery q) k hk, hpad k hk]
      simp
    · rw [compound_nomatch (normalizeQuery q) k hk (hcomp k hk)]
      simp
  simp only [ValidateQuery]
  rw [show hasPrefixL (goToLower (goTrimSpace q)) "select".toList = true from hsel]
  rw [show List.find?
      (fun kw => goContains (' ' :: (goToLower (goTrimSpace q) ++ [' '])) kw)
      dangerousKeywords = none from hnone]
  rfl

/-- Witness for C4 amended: `iddrop` embeds the keyword `drop` inside a
longer identifier and the query is accepted. -/
theorem C4_amended_witness :
    ValidateQuery "select iddrop from t".toList = .ok () :=
  C4_amended "select iddrop from t".toList (by decide) (by decide) (by decide)

/-- C6 counterexample: `drop table users` contains the blacklist keyword
`drop` space-delimited (at the string boundary), and the Validator does
reject it, but the reported message is the SELECT-only rejection, not a
report of any blacklist keyword: the keyword scan is unreachable for
queries that do not start with `select`. -/
theorem C6_counterexample :
    (" drop ".toList ∈ dangerousKeywords) ∧
    delimitedOccursB (goTrimSpace " drop ".toList)
        (normalizeQuery "drop table users".toList) = true ∧
    ValidateQuery "drop table users".toList = .error errOnlySelect ∧
    dangerousKeywords.all
        (fun k => !(errOnlySelect == errForbidden (goTrimSpace k))) = true := by
  refine ⟨by decide, by decide, by decide, by decide⟩

/-- C6 amended: for every SQL string that starts with `select` (after
lower-casing and trimming) and contains some blacklisted keyword
delimited by single spaces or string boundaries, the Validator rejects,
reporting the first keyword of the fixed blacklist order whose padded
substring test matches (`List.find?` selects the first match of the
source's loop). -/
theorem C6_amended (q : GoStr)
    (hsel : hasPrefixL (normalizeQuery q) "select".toList = true)
    (hdel : ∃ k ∈ dangerousKeywords,
      delimitedOccursB (goTrimSpace k) (normalizeQuery q) = true) :
    ∃ k₀, List.find? (fun kw => goContains (' ' :: (normalizeQuery q ++ [' '])) kw)
        dangerousKeywords = some k₀ ∧
      ValidateQuery q = .error (errForbidden (goTrimSpace k₀)) := by
  obtain ⟨k, hk, hkd⟩ := hdel
  have hmatch : (List.find?
      (fun kw => goContains (' ' :: (normalizeQuery q ++ [' '])) kw)
      dangerousKeywords).isSome := by
    rw [List.find?_isSome]
    exact ⟨k, hk, keyword_match_of_delimited (normalizeQuery q) k hk hkd⟩
  obtain ⟨k₀, hk₀⟩ := Option.isSome_iff_exists.mp hmatch
  refine ⟨k₀, hk₀, ?_⟩
  simp only [ValidateQuery]
  rw [show hasPrefixL (goToLower (goTrimSpace q)) "select".toList = true from hsel]
  rw [show List.find?
      (fun kw => goContains (' ' :: (goToLower (goTrimSpace q) ++ [' '])) kw)
      dangerousKeywords = some k₀ from hk₀]
  rfl

/-- Witness for C6 amended at `select x drop y`. -/
theorem C6_amended_witness :
    ∃ k₀, List.find?
        (fun kw => goContains
          (' ' :: (normalizeQuery "select x drop y".toList ++ [' '])) kw)
        dangerousKeywords = some k₀ ∧
      ValidateQuery "select x drop y".toList
        = .error (errForbidden (goTrimSpace k₀)) :=
  C6_amended "select x drop y".toList (by decide)
    ⟨" drop ".toList, by decide, by decide⟩

/-- C7 counterexample: a request with limit 10001 but empty `sql_text`
is rejected with a transport-level invalid-argument error before the
clamp, with the executor never invoked — not clamped-and-proceeded as
the claim states for every request with limit over 10000. -/
theorem C7_counterexample :
    ((10001 : Int) > 10000) ∧
    GetRetailers emptyDB 0
        { SqlQuery := [], Parameters := [], Limit := 10001, Offset := 0 }
      = (.error ⟨GrpcCode.invalidArgument, "sql_query cannot be empty".toList⟩,
         false) := by
  refine ⟨by decide, by decide⟩

/-- C7 amended: for every request that passes the facade's input
validation (non-empty `sql_text`, non-negative offset) and has limit
strictly greater than 10000, the facade behaves exactly as if the limit
were 10000 (the clamp is to exactly 10000), invokes the executor, and
returns a transport-level success rather than rejecting. -/
theorem C7_amended (db : DB) (e : Int) (req : GetRetailersRequest)
    (hq : req.SqlQuery ≠ []) (ho : 0 ≤ req.Offset) (hl : req.Limit > 10000) :
    GetRetailers db e req = GetRetailers db e { req with Limit := 10000 } ∧
    (GetRetailers db e req).snd = true ∧
    ∃ resp, (GetRetailers db e req).fst = .ok resp := by
  have hl0 : ¬ req.Limit < 0 := by omega
  have ho0 : ¬ req.Offset < 0 := by omega
  have hl2 : ¬ (10000 : Int) < 0 := by omega
  have hl3 : ¬ (10000 : Int) > 10000 := by omega
  simp only [GetRetailers, if_neg hq, if_neg hl0, if_neg ho0, if_pos hl,
    if_neg hl2, if_neg hl3]
  cases hres : (ExecuteQuery db e req.SqlQuery req.Parameters 10000 req.Offset).fst with
  | error m => simp
  | ok r => simp

/-- Witness for C7 amended at limit 10001. -/
theorem C7_amended_witness :
    GetRetailers emptyDB 0
        { SqlQuery := "select 1".toList, Parameters := [], Limit := 10001, Offset := 0 }
      = GetRetailers emptyDB 0
        { SqlQuery := "select 1".toList, Parameters := [], Limit := 10000, Offset := 0 } ∧
    (GetRetailers emptyDB 0
        { SqlQuery := "select 1".toList, Parameters := [], Limit := 10001, Offset := 0 }).snd
      = true ∧
    ∃ resp, (GetRetailers emptyDB 0
        { SqlQuery := "select 1".toList, Parameters := [], Limit := 10001, Offset := 0 }).fst
      = .ok resp :=
  C7_amended emptyDB 0 _ (by decide) (by decide) (by decide)

/-- C1 counterexample: two executions whose backends report the same
column-to-value binding but opposite column orders produce row mappings
with identical Go map content (`mapEquivB`).  A Go map's iteration order
is a function of the map value only (randomized by the runtime, never
derived from insertion order), so the map the code builds cannot carry
an iteration order that preserves the two distinct backend column
orders; the backend column order survives only in the separate
`SQLResult.Columns` field. -/
theorem C1_counterexample :
    (ExecuteQuery dbColsAB 0 "select 1".toList [] 0 0).fst
      = .ok ({ Columns := ["ID".toList, "NAME".toList],
               Rows := [[("ID".toList, GoValue.vStr "r1".toList),
                         ("NAME".toList, GoValue.vStr "Acme".toList)]] }, 0) ∧
    (ExecuteQuery dbColsBA 0 "select 1".toList [] 0 0).fst
      = .ok ({ Columns := ["NAME".toList, "ID".toList],
               Rows := [[("NAME".toList, GoValue.vStr "Acme".toList),
                         ("ID".toList, GoValue.vStr "r1".toList)]] }, 0) ∧
    mapEquivB
        [("ID".toList, GoValue.vStr "r1".toList),
         ("NAME".toList, GoValue.vStr "Acme".toList)]
        [("NAME".toList, GoValue.vStr "Acme".toList),
         ("ID".toList, GoValue.vStr "r1".toList)] = true ∧
    (["ID".toList, "NAME".toList] : List GoStr) ≠ ["NAME".toList, "ID".toList] := by
  refine ⟨by decide, by decide, by decide, by decide⟩

/-- C1 amended: every successful execution returns the backend's answer
to that very call with rows in backend-returned order (the i-th result
row is materialized from the i-th backend row), the backend's reported
column order preserved in `SQLResult.Columns`, and each row map binding
every reported column name to that row's value for it; the per-row
mapping itself is an unordered Go map with no iteration-order
guarantee. -/
theorem C1_amended (db : DB) (e : Int) (q : GoStr)
    (parameters : List (GoStr × GoStr)) (limit offset : Int)
    (res : SQLResult) (t : Int)
    (hex : (ExecuteQuery db e q parameters limit offset).fst = .ok (res, t)) :
    ∃ dbres : DBResult,
      db (appendPagination q limit offset) (bindArgs parameters) = .ok dbres ∧
      res.Columns = dbres.columns ∧
      res.Rows.length = dbres.rows.length ∧
      (dbres.columns.Nodup →
        ∀ (i : Nat) (hi : i < res.Rows.length) (hi2 : i < dbres.rows.length),
          (dbres.rows.get ⟨i, hi2⟩).length = dbres.columns.length →
          ∀ (j : Nat) (hj : j < dbres.columns.length)
            (hj2 : j < (dbres.rows.get ⟨i, hi2⟩).length),
            lookupMap (res.Rows.get ⟨i, hi⟩) (dbres.columns.get ⟨j, hj⟩)
              = some ((dbres.rows.get ⟨i, hi2⟩).get ⟨j, hj2⟩)) := by
  by_cases hq : q = []
  · simp [ExecuteQuery, hq] at hex
  · cases hv : ValidateQuery q with
    | error m => simp [ExecuteQuery, hq, hv] at hex
    | ok u =>
      cases hdb : db (appendPagination q limit offset) (bindArgs parameters) with
      | error m => simp [ExecuteQuery, hq, hv, hdb] at hex
      | ok r =>
        simp only [ExecuteQuery, if_neg hq, hv, hdb] at hex
        obtain ⟨hres, hte⟩ := Prod.mk.injEq .. ▸ (Except.ok.injEq .. ▸ hex)
        subst hres
        refine ⟨r, rfl, rfl, by simp, ?_⟩
        intro hnd i hi hi2 hlen j hj hj2
        have hrow : (List.map (fun vals => buildRowMap r.columns vals) r.rows).get ⟨i, hi⟩
            = buildRowMap r.columns (r.rows.get ⟨i, hi2⟩) := by
          simp [List.get_eq_getElem, List.getElem_map]
        rw [hrow, buildRowMap_eq_zip r.columns _ hnd hlen]
        exact lookup_zip_get r.columns _ hnd j hj hj2


/-- Witness for C1 amended against the oracle `dbColsAB`. -/
theorem C1_amended_witness :
    ∃ dbres : DBResult,
      dbColsAB (appendPagination "select 1".toList 0 0) (bindArgs []) = .ok dbres ∧
      resAB.Columns = dbres.columns ∧
      resAB.Rows.length = dbres.rows.length ∧
      (dbres.columns.Nodup →
        ∀ (i : Nat) (hi : i < resAB.Rows.length) (hi2 : i < dbres.rows.length),
          (dbres.rows.get ⟨i, hi2⟩).length = dbres.columns.length →
          ∀ (j : Nat) (hj : j < dbres.columns.length)
            (hj2 : j < (dbres.rows.get ⟨i, hi2⟩).length),
            lookupMap (resAB.Rows.get ⟨i, hi⟩) (dbres.columns.get ⟨j, hj⟩)
              = some ((dbres.rows.get ⟨i, hi2⟩).get ⟨j, hj2⟩)) :=
  C1_amended dbColsAB 0 "select 1".toList [] 0 0 resAB 0 (by decide)
